import Mathlib

/-!
Verification development for the IN-SMART chatbot backend
(`src/app.py` and `src/api/chat.py`; the two files contain the same
chat-handler logic, so a single embedding covers both).

The embedding models:
* the JSON values manipulated by the handler (`Json`),
* Python's `json.loads` on completion texts (`jsonParse`),
* the response normalizer of `app.py` lines 351-400 (`normalize`),
* the history accumulator of lines 406-409 (`appendTurn`),
* the `/api/chat` handler's validation and upstream-error paths (`chat`),
* the crawler's corpus assembly and final truncation
  (`crawl_insmart`, lines 82-150).

Strings are modelled as Lean `String` / `List Char`; Python `len`,
`find`, `rfind` and slicing all operate on code points, exactly as
`List Char` indices do.
-/

namespace Insmart

/-- JSON values as produced by `json.loads`.  Objects keep their fields in
textual order (duplicate keys are resolved to the last occurrence by
`jget`, matching Python dict construction).  Numeric values are carried as
integers: the handler only ever type-tests numbers (`isinstance` checks),
never reads their magnitude, so the fractional part of a float literal is
abstracted away by the parser. -/
inductive Json where
  | null
  | bool (b : Bool)
  | num (n : Int)
  | str (s : String)
  | arr (items : List Json)
  | obj (fields : List (String × Json))

/-- Opening brace character, written via its code point. -/
def lbrace : Char := Char.ofNat 123

/-- Closing brace character, written via its code point. -/
def rbrace : Char := Char.ofNat 125

/-- Double-quote character. -/
def dquote : Char := Char.ofNat 34

/-- Backslash character. -/
def bslash : Char := Char.ofNat 92

/-- JSON insignificant whitespace (space, tab, newline, carriage return),
as accepted by Python's `json.loads`. -/
def skipWs : List Char → List Char
  | [] => []
  | c :: rest =>
    if c == ' ' || c == '\t' || c == '\n' || c == '\r' then skipWs rest
    else c :: rest

/-- Value of a hexadecimal digit, if any. -/
def hexVal (c : Char) : Option Nat :=
  if '0' ≤ c ∧ c ≤ '9' then some (c.toNat - 48)
  else if 'a' ≤ c ∧ c ≤ 'f' then some (c.toNat - 87)
  else if 'A' ≤ c ∧ c ≤ 'F' then some (c.toNat - 55)
  else none

/-- Decode one JSON string escape (the characters after a backslash).
Returns the decoded character and the remaining input. -/
def unescape : List Char → Option (Char × List Char)
  | [] => none
  | e :: rest =>
    if e == dquote then some (dquote, rest)
    else if e == bslash then some (bslash, rest)
    else if e == '/' then some ('/', rest)
    else if e == 'b' then some (Char.ofNat 8, rest)
    else if e == 'f' then some (Char.ofNat 12, rest)
    else if e == 'n' then some (Char.ofNat 10, rest)
    else if e == 'r' then some (Char.ofNat 13, rest)
    else if e == 't' then some (Char.ofNat 9, rest)
    else if e == 'u' then
      match rest with
      | h1 :: h2 :: h3 :: h4 :: rest2 =>
        match hexVal h1, hexVal h2, hexVal h3, hexVal h4 with
        | some a, some b, some c, some d =>
          some (Char.ofNat (a * 4096 + b * 256 + c * 16 + d), rest2)
        | _, _, _, _ => none
      | _ => none
    else none

/-- Body of a JSON string literal (input starts after the opening quote).
Raw control characters are rejected, as in strict-mode `json.loads`.
The fuel argument only bounds recursion depth; `jsonParse` supplies more
fuel than any input can consume. -/
def parseStringBody (fuel : Nat) (l : List Char) : Option (List Char × List Char) :=
  match fuel, l with
  | 0, _ => none
  | _ + 1, [] => none
  | fuel + 1, c :: rest =>
    if c == dquote then some ([], rest)
    else if c == bslash then
      match unescape rest with
      | some (ch, rest2) =>
        match parseStringBody fuel rest2 with
        | some (s, r) => some (ch :: s, r)
        | none => none
      | none => none
    else if c.toNat < 32 then none
    else
      match parseStringBody fuel rest with
      | some (s, r) => some (c :: s, r)
      | none => none

/-- Digits of a decimal literal read as a natural number. -/
def natOfDigits (l : List Char) : Nat :=
  l.foldl (fun a c => a * 10 + (c.toNat - 48)) 0

/-- JSON number literal, following the strict grammar of `json.loads`
(`-? int frac? exp?`, no leading zeros).  The fractional part and the
exponent are consumed syntactically; the stored value keeps only the
integer part (see `Json.num`). -/
def parseNumber (l : List Char) : Option (Json × List Char) :=
  let p : Bool × List Char :=
    match l with
    | c :: r => if c == '-' then (true, r) else (false, l)
    | [] => (false, [])
  let neg := p.1
  let l1 := p.2
  let ipr := l1.span Char.isDigit
  let ip := ipr.1
  let r1 := ipr.2
  if ip.isEmpty then none
  else if 1 < ip.length ∧ ip.head? = some '0' then none
  else
    let afterFrac : Option (List Char) :=
      match r1 with
      | '.' :: r =>
        let fd := r.span Char.isDigit
        if fd.1.isEmpty then none else some fd.2
      | _ => some r1
    match afterFrac with
    | none => none
    | some r2 =>
      let afterExp : Option (List Char) :=
        match r2 with
        | c :: r =>
          if c == 'e' || c == 'E' then
            let r3 :=
              match r with
              | s :: r' => if s == '+' || s == '-' then r' else r
              | [] => r
            let ed := r3.span Char.isDigit
            if ed.1.isEmpty then none else some ed.2
          else some r2
        | [] => some r2
      match afterExp with
      | none => none
      | some r5 =>
        let n : Int := Int.ofNat (natOfDigits ip)
        some (Json.num (if neg then -n else n), r5)

mutual

/-- One JSON value (recursive descent, mirroring `json.loads`).  Returns
the value and the unconsumed input. -/
def parseVal (fuel : Nat) (input : List Char) : Option (Json × List Char) :=
  match fuel with
  | 0 => none
  | fuel + 1 =>
    match skipWs input with
    | [] => none
    | c :: rest =>
      if c == dquote then
        match parseStringBody fuel rest with
        | some (s, r) => some (Json.str (String.mk s), r)
        | none => none
      else if c == lbrace then
        match skipWs rest with
        | c2 :: r2 =>
          if c2 == rbrace then some (Json.obj [], r2)
          else
            match parseObjItems fuel (c2 :: r2) with
            | some (fs, r) => some (Json.obj fs, r)
            | none => none
        | [] => none
      else if c == '[' then
        match skipWs rest with
        | ']' :: r2 => some (Json.arr [], r2)
        | l2 =>
          match parseArrItems fuel l2 with
          | some (vs, r) => some (Json.arr vs, r)
          | none => none
      else if c == 't' then
        match rest with
        | 'r' :: 'u' :: 'e' :: r => some (Json.bool true, r)
        | _ => none
      else if c == 'f' then
        match rest with
        | 'a' :: 'l' :: 's' :: 'e' :: r => some (Json.bool false, r)
        | _ => none
      else if c == 'n' then
        match rest with
        | 'u' :: 'l' :: 'l' :: r => some (Json.null, r)
        | _ => none
      else if c == '-' || c.isDigit then parseNumber (c :: rest)
      else none

/-- Comma-separated array items up to the closing bracket. -/
def parseArrItems (fuel : Nat) (l : List Char) : Option (List Json × List Char) :=
  match fuel with
  | 0 => none
  | fuel + 1 =>
    match parseVal fuel l with
    | some (v, r) =>
      match skipWs r with
      | ',' :: r2 =>
        match parseArrItems fuel r2 with
        | some (vs, r3) => some (v :: vs, r3)
        | none => none
      | ']' :: r2 => some ([v], r2)
      | _ => none
    | none => none

/-- Comma-separated `"key": value` pairs up to the closing brace. -/
def parseObjItems (fuel : Nat) (l : List Char) :
    Option (List (String × Json) × List Char) :=
  match fuel with
  | 0 => none
  | fuel + 1 =>
    match skipWs l with
    | c :: rest =>
      if c == dquote then
        match parseStringBody fuel rest with
        | some (k, r1) =>
          match skipWs r1 with
          | ':' :: r2 =>
            match parseVal fuel r2 with
            | some (v, r3) =>
              match skipWs r3 with
              | ',' :: r4 =>
                match parseObjItems fuel r4 with
                | some (fs, r5) => some ((String.mk k, v) :: fs, r5)
                | none => none
              | c2 :: r4 =>
                if c2 == rbrace then some ([(String.mk k, v)], r4) else none
              | [] => none
            | none => none
          | _ => none
        | none => none
      else none
    | [] => none

end

/-- Model of Python `json.loads`: parse one JSON document and require
that only whitespace follows it. -/
def jsonParse (l : List Char) : Option Json :=
  match parseVal (2 * l.length + 2) l with
  | some (v, rest) => if (skipWs rest).isEmpty then some v else none
  | none => none

/-- Python `dict.get` on a parsed JSON object: with duplicate keys the
last occurrence wins, matching how `json.loads` builds the dict. -/
def jget : List (String × Json) → String → Option Json
  | [], _ => none
  | (k, v) :: rest, key =>
    match jget rest key with
    | some r => some r
    | none => if k = key then some v else none

/-- First index of a character in a list, Python `str.find` (restricted
to a single-character needle, the only use in the source). -/
def pyFind : List Char → Char → Option Nat
  | [], _ => none
  | a :: rest, c =>
    if a = c then some 0 else (pyFind rest c).map (· + 1)

/-- Last index of a character in a list, Python `str.rfind`. -/
def pyRfind (l : List Char) (c : Char) : Option Nat :=
  (pyFind l.reverse c).map (fun i => l.length - 1 - i)

/-- Python whitespace as stripped by `str.strip()` (ASCII whitespace,
the C1 separators, and the Unicode space characters). -/
def pyIsSpace (c : Char) : Bool :=
  let n := c.toNat
  n == 32 || (9 ≤ n && n ≤ 13) || (28 ≤ n && n ≤ 31) || n == 0x85 ||
    n == 0xa0 || n == 0x1680 || (0x2000 ≤ n && n ≤ 0x200a) ||
    n == 0x2028 || n == 0x2029 || n == 0x202f || n == 0x205f || n == 0x3000

/-- Python `str.strip()` on a character list. -/
def pyStripL (l : List Char) : List Char :=
  ((l.dropWhile pyIsSpace).reverse.dropWhile pyIsSpace).reverse

/-- Python `str.strip()`. -/
def pyStrip (s : String) : String :=
  String.mk (pyStripL s.data)

/-- The regular-expression test `re.search(r"[一-鿿]", ...)` of
`app.py` line 385: does the text contain a CJK Unified Ideograph? -/
def hasCJK (s : String) : Bool :=
  s.data.any fun c => decide (0x4e00 ≤ c.toNat ∧ c.toNat ≤ 0x9fff)

/-- The Traditional-Chinese fallback follow-up set (`app.py` 389-393). -/
def zhFallbacks : List String :=
  ["我還可以進一步了解哪些有關 IN-SMART 支援目標或活動的資訊？",
   "我可以如何善用 IN-SMART 提供的教師培訓或 STEAM／AI 教學設計支援？",
   "如果我之後有問題或想參加計劃，我可以用甚麼方式聯絡 IN-SMART 團隊？"]

/-- The English fallback follow-up set (`app.py` 396-400). -/
def enFallbacks : List String :=
  ["What else can I learn about IN-SMART’s support goals or activities?",
   "How can I make use of IN-SMART’s support for teacher training or STEAM/AI learning design?",
   "If I have more questions or want to participate, how can I contact the IN-SMART team?"]

/-- Language-matched fallback set, chosen by the CJK test on the reply
text (`app.py` 385-400). -/
def fallbackFollowups (reply : String) : List String :=
  if hasCJK reply then zhFallbacks else enFallbacks

/-- Stages 1-2 of the normalizer (`app.py` 354-368): direct `json.loads`,
then on failure the substring from the first brace to the last brace
(exclusive bound `end > start`, slice `raw_content[start:end+1]`). -/
def parsedOf (raw : List Char) : Option Json :=
  match jsonParse raw with
  | some v => some v
  | none =>
    match pyFind raw lbrace, pyRfind raw rbrace with
    | some s, some e =>
      if s < e then jsonParse ((raw.drop s).take (e + 1 - s)) else none
    | _, _ => none

/-- Keep only the string elements of a followups array
(`[f for f in parsed["followups"] if isinstance(f, str)]`). -/
def stringItems (items : List Json) : List String :=
  items.filterMap fun x =>
    match x with
    | Json.str s => some s
    | _ => none

/-- Field extraction of `app.py` 370-374: if the parse produced a dict,
take `reply` when it is a string and the string elements of `followups`
when it is a list; otherwise the empty defaults. -/
def extractPair (p : Option Json) : String × List String :=
  match p with
  | some (Json.obj fields) =>
    let r :=
      match jget fields "reply" with
      | some (Json.str s) => s
      | _ => ""
    let fs :=
      match jget fields "followups" with
      | some (Json.arr items) => stringItems items
      | _ => []
    (r, fs)
  | _ => ("", [])

/-- The response normalizer (`app.py` 351-400): layered parse, raw-text
fallback for an empty reply, language-matched fallback followups. -/
def normalize (raw : String) : String × List String :=
  let p := extractPair (parsedOf raw.data)
  let reply := if p.1 = "" then raw else p.1
  (reply, if p.2 = [] then fallbackFollowups reply else p.2)

/-- One conversation turn as a JSON object,
`{"role": role, "content": content}`. -/
def mkTurn (role content : String) : Json :=
  Json.obj [("role", Json.str role), ("content", Json.str content)]

/-- History update of `app.py` 406-409: coerce a non-list history to the
empty list, then append the user turn and the assistant turn. -/
def appendTurn (history : Json) (userMessage assistantReply : String) : List Json :=
  (match history with
   | Json.arr l => l
   | _ => []) ++ [mkTurn "user" userMessage, mkTurn "assistant" assistantReply]

/-- Python truthiness of a JSON value (`or []` coercion on line 205). -/
def jsonTruthy : Json → Bool
  | Json.null => false
  | Json.bool b => b
  | Json.num n => n != 0
  | Json.str s => !s.isEmpty
  | Json.arr items => !items.isEmpty
  | Json.obj fields => !fields.isEmpty

/-- Outcome of one `requests.post` to the completion endpoint.
`failure e` models a raised transport exception; `resp status text
content` models a response, where `content` abstracts the navigation
`resp.json()["choices"][0]["message"]["content"]` (`none` when that
navigation would raise, `some raw` when it yields the completion text). -/
inductive UpResp where
  | failure (e : String)
  | resp (status : Nat) (text : String) (content : Option String)

/-- The `/api/chat` handler (`app.py` 186-417).  `data` is the request
dict after `request.get_json(silent=True) or {}`; `upstream` is the
sequence of results the completion endpoint would return to successive
calls (the handler only ever performs the first).  The result is
`some (status, body)`; `none` models an unhandled exception (a non-string
`message`, an exhausted oracle, or a malformed 200 payload), which Flask
would surface as a 500 outside the handler's own logic.  Prompt
composition (lines 210-329) only feeds the upstream call and is absorbed
into the oracle. -/
def chat (data : List (String × Json)) (upstream : List UpResp) :
    Option (Nat × Json) :=
  match (jget data "message").getD (Json.str "") with
  | Json.str m =>
    let userMessage := pyStrip m
    if userMessage = "" then
      some (400, Json.obj [("error", Json.str "message is required")])
    else
      let history :=
        match jget data "history" with
        | some h => if jsonTruthy h then h else Json.arr []
        | none => Json.arr []
      match upstream with
      | [] => none
      | UpResp.failure e :: _ =>
        some (500, Json.obj [("error", Json.str ("request failed: " ++ e))])
      | UpResp.resp status text content :: _ =>
        if status = 200 then
          match content with
          | none => none
          | some raw =>
            let nr := normalize raw
            some (200, Json.obj
              [("reply", Json.str nr.1),
               ("followups", Json.arr (nr.2.map Json.str)),
               ("history", Json.arr (appendTurn history userMessage nr.1))])
        else
          some (status, Json.obj
            [("error", Json.str "upstream_error"),
             ("status", Json.num (Int.ofNat status)),
             ("body", Json.str text)])
  | _ => none

/-- Per-page truncation marker (`html_to_text` line 73 and the non-HTML
branch line 124). -/
def pageMarker : List Char := "\n...[content truncated]".data

/-- Final corpus truncation marker (`crawl_insmart` line 148). -/
def overallMarker : List Char := "\n...[overall corpus truncated]".data

/-- Line boundaries recognised by Python `str.splitlines()`. -/
def isLineBreak (c : Char) : Bool :=
  let n := c.toNat
  n == 10 || n == 11 || n == 12 || n == 13 || n == 28 || n == 29 ||
    n == 30 || n == 0x85 || n == 0x2028 || n == 0x2029

/-- Python `str.splitlines()`: split at line boundaries, treating
a carriage return followed by a newline as a single boundary; no empty
trailing line. -/
def splitlinesAux (acc : List Char) : List Char → List (List Char)
  | [] => if acc.isEmpty then [] else [acc.reverse]
  | '\r' :: '\n' :: rest => acc.reverse :: splitlinesAux [] rest
  | c :: rest =>
    if isLineBreak c then acc.reverse :: splitlinesAux [] rest
    else splitlinesAux (c :: acc) rest
termination_by l => l.length
decreasing_by all_goals (simp_wf <;> omega)

/-- Python `str.splitlines()`. -/
def splitlines (l : List Char) : List (List Char) :=
  splitlinesAux [] l

/-- Is `needle` an initial segment of `hay`? -/
def startsWithL : List Char → List Char → Bool
  | [], _ => true
  | _ :: _, [] => false
  | a :: ns, b :: hs => a == b && startsWithL ns hs

/-- Python substring containment `needle in hay`. -/
def containsL (hay needle : List Char) : Bool :=
  match hay with
  | [] => needle.isEmpty
  | _ :: rest => startsWithL needle hay || containsL rest needle

/-- The text cleanup of `html_to_text` (`app.py` 55-75), applied to the
text that `BeautifulSoup.get_text(separator="\n")` produced for the page
(the soup extraction itself is a library call, supplied by the crawl
environment): strip each line, drop empty lines, rejoin with newlines,
truncate to `maxChars` with the per-page marker. -/
def html_to_text (soupText : List Char) (maxChars : Nat) : List Char :=
  let lines := (splitlines soupText).map pyStripL
  let kept := lines.filter fun l => !l.isEmpty
  let text := List.intercalate ['\n'] kept
  if maxChars < text.length then text.take maxChars ++ pageMarker else text

/-- Python `"".join(...)` on collected page texts. -/
def joinAll (ls : List (List Char)) : List Char :=
  ls.foldr (· ++ ·) []

/-- Result of `fetch_html` for one URL: `fail e` models a raised request
exception (message `e`), `ok text ctype` a successful fetch with body
`text` and Content-Type `ctype`. -/
inductive FetchRes where
  | fail (emsg : List Char)
  | ok (text : List Char) (ctype : List Char)

/-- Environment of a crawl: the network and HTML-library behaviour.
`fetch` models `fetch_html`; `soupText` models
`BeautifulSoup.get_text(separator="\n")` after dropping
script/style/noscript; `links` models the resolved outbound links of a
page that survive the same-domain/scheme filter of lines 133-139
(`soup.find_all`, `urljoin` and `urlparse` are library calls). -/
structure CrawlEnv where
  fetch : List Char → FetchRes
  soupText : List Char → List Char
  links : List Char → List Char → List (List Char)

/-- The corpus entry for a fetched page
(`f"\n[Content of \x7burl\x7d]\n\x7btext\x7d\n"`). -/
def contentEntry (url text : List Char) : List Char :=
  "\n[Content of ".data ++ url ++ "]\n".data ++ text ++ "\n".data

/-- The corpus entry recorded for a failed fetch
(`f"\n[Failed to fetch \x7burl\x7d: \x7be\x7d]\n"`). -/
def failEntry (url emsg : List Char) : List Char :=
  "\n[Failed to fetch ".data ++ url ++ ": ".data ++ emsg ++ "]\n".data

/-- The BFS loop of `crawl_insmart` (`app.py` 108-144).  `visited` is the
visited set (kept as a duplicate-free list, so its length is the set's
size), `queue` the pending URLs, `collected` the page texts gathered so
far.  The fuel argument only bounds the number of iterations; the Python
loop terminates because each iteration either consumes a queue entry or
grows the capped visited set, so every terminating run is reproduced at
some sufficient fuel, and the theorems below hold for every fuel. -/
def crawlLoop (env : CrawlEnv) (maxPages perPage total : Nat) :
    Nat → List (List Char) → List (List Char) → List (List Char) → List (List Char)
  | 0, _, _, collected => collected
  | fuel + 1, queue, visited, collected =>
    if queue.isEmpty ∨ ¬ visited.length < maxPages ∨
        ¬ (joinAll collected).length < total then collected
    else
      match queue with
      | [] => collected
      | url :: qrest =>
        if url ∈ visited then crawlLoop env maxPages perPage total fuel qrest visited collected
        else
          let visited' := url :: visited
          match env.fetch url with
          | FetchRes.fail e =>
            crawlLoop env maxPages perPage total fuel qrest visited'
              (collected ++ [failEntry url e])
          | FetchRes.ok text ctype =>
            if !containsL ctype "text/html".data then
              let t :=
                if perPage < text.length then text.take perPage ++ pageMarker
                else text
              crawlLoop env maxPages perPage total fuel qrest visited'
                (collected ++ [contentEntry url t])
            else
              let pageText := html_to_text (env.soupText text) perPage
              let collected' := collected ++ [contentEntry url pageText]
              let queue' := qrest ++ (env.links url text).filter (fun u => u ∉ visited')
              if total ≤ (joinAll collected').length then collected'
              else crawlLoop env maxPages perPage total fuel queue' visited' collected'

/-- ASCII lowercasing of one character; `urlsplit` lowercases the scheme
before it is compared against `http`/`https` (for the ASCII schemes that
comparison admits, ASCII lowercasing is all that matters). -/
def toLowerAscii (c : Char) : Char :=
  if 'A' ≤ c ∧ c ≤ 'Z' then Char.ofNat (c.toNat + 32) else c

/-- Characters allowed in a URL scheme after the first one, the
`scheme_chars` of `urllib.parse` (letters, digits, plus, minus, dot). -/
def isSchemeChar (c : Char) : Bool :=
  c.isAlpha || c.isDigit || c == '+' || c == '-' || c == '.'

/-- Scheme split of `urllib.parse.urlsplit`: when a colon at position
`i > 0` is preceded by an ASCII letter followed by scheme characters,
the lowercased prefix is the scheme and the rest follows the colon;
otherwise the scheme is empty and the whole URL remains. -/
def splitScheme (url : List Char) : List Char × List Char :=
  match pyFind url ':' with
  | some i =>
    match url with
    | [] => ([], [])
    | c0 :: _ =>
      if 0 < i && c0.isAlpha && ((url.take i).drop 1).all isSchemeChar then
        ((url.take i).map toLowerAscii, url.drop (i + 1))
      else ([], url)
  | none => ([], url)

/-- Netloc extraction of `urllib.parse.urlsplit` on the rest after the
scheme: the text after a leading `//` up to the next `/`, `?` or `#`
(empty when the rest does not start with `//`). -/
def netlocOf (rest : List Char) : List Char :=
  match rest with
  | '/' :: '/' :: r => r.takeWhile fun c => !(c == '/' || c == '?' || c == '#')
  | _ => []

/-- The seed-URL validation of `crawl_insmart` (`app.py` 97-102): the
parsed scheme must be `http` or `https` and the netloc non-empty. -/
def validSeed (url : List Char) : Bool :=
  let sp := splitScheme url
  (sp.1 == "http".data || sp.1 == "https".data) && !(netlocOf sp.2).isEmpty

/-- `crawl_insmart` (`app.py` 82-150): validate the seed URL (a failed
validation raises `ValueError`, modelled as `none`), run the BFS from
the start URL, and hard-truncate the joined corpus to `total`
characters, appending the overall truncation marker when it was
exceeded (lines 146-150). -/
def crawl_insmart (env : CrawlEnv) (startUrl : List Char)
    (maxPages perPage total fuel : Nat) : Option (List Char) :=
  if validSeed startUrl then
    let corpus := joinAll (crawlLoop env maxPages perPage total fuel [startUrl] [] [])
    some (if total < corpus.length then corpus.take total ++ overallMarker else corpus)
  else none

/-! ### Helper lemmas -/

theorem pyFind_mem : ∀ {l : List Char} {c : Char} {i : Nat},
    pyFind l c = some i → l[i]? = some c := by
  intro l
  induction l with
  | nil => intro c i h; simp [pyFind] at h
  | cons a rest ih =>
    intro c i h
    rw [pyFind] at h
    by_cases hac : a = c
    · rw [if_pos hac] at h
      cases h
      simp [hac]
    · rw [if_neg hac] at h
      rcases Option.map_eq_some'.mp h with ⟨j, hj, hi⟩
      subst hi
      simpa using ih hj

theorem pyRfind_mem {l : List Char} {c : Char} {e : Nat}
    (h : pyRfind l c = some e) : l[e]? = some c := by
  rcases Option.map_eq_some'.mp h with ⟨i, hi, he⟩
  have hg := pyFind_mem hi
  have hlt : i < l.reverse.length := by
    by_contra hh
    push_neg at hh
    rw [List.getElem?_eq_none hh] at hg
    cases hg
  have hlt' : i < l.length := by simpa using hlt
  rw [List.getElem?_reverse hlt'] at hg
  rw [he] at hg
  exact hg

/-! ### Claim C1 -/

/-- C1 (amended): for every completion text that parses as the JSON
object with fields `reply: R` (a string) and `followups: [f1, f2, f3]`
(three strings), and with `R` non-empty, the normalizer returns exactly
`(R, [f1, f2, f3])`. -/
theorem normalize_valid_json (raw R f1 f2 f3 : String)
    (hparse : jsonParse raw.data = some (Json.obj
      [("reply", Json.str R),
       ("followups", Json.arr [Json.str f1, Json.str f2, Json.str f3])]))
    (hR : R ≠ "") :
    normalize raw = (R, [f1, f2, f3]) := by
  have hp : parsedOf raw.data = some (Json.obj
      [("reply", Json.str R),
       ("followups", Json.arr [Json.str f1, Json.str f2, Json.str f3])]) := by
    simp [parsedOf, hparse]
  have hex : extractPair (parsedOf raw.data) = (R, [f1, f2, f3]) := by
    rw [hp]
    simp [extractPair, jget, stringItems]
  simp [normalize, hex, hR]

/-- C1 counterexample: when the object's `reply` is the empty string the
code falls back to the whole raw text as reply, so the claimed result
`("", ["a", "b", "c"])` is not returned. -/
theorem normalize_valid_json_empty_reply_cx :
    normalize "\x7b\"reply\":\"\",\"followups\":[\"a\",\"b\",\"c\"]\x7d"
      ≠ ("", ["a", "b", "c"]) := by
  decide

/-- C1 witness at a concrete valid payload. -/
theorem normalize_valid_json_witness :
    normalize "\x7b\"reply\":\"Hi\",\"followups\":[\"a\",\"b\",\"c\"]\x7d"
      = ("Hi", ["a", "b", "c"]) :=
  normalize_valid_json _ "Hi" "a" "b" "c" (by rfl) (by decide)

/-! ### Claim C2 -/

/-- C2 (amended): the normalizer is total by construction, and for every
non-empty raw completion text the returned reply is non-empty. -/
theorem normalize_total_nonempty (raw : String) (h : raw ≠ "") :
    (normalize raw).1 ≠ "" := by
  by_cases hp : (extractPair (parsedOf raw.data)).1 = ""
  · simpa [normalize, hp] using h
  · simp [normalize, hp]

/-- C2 counterexample: on the empty raw completion text the returned
reply is the empty string, so the non-empty guarantee fails there. -/
theorem normalize_empty_input_cx : (normalize "").1 = "" := by rfl

/-- C2 witness at a concrete non-empty input. -/
theorem normalize_total_nonempty_witness : (normalize "x").1 ≠ "" :=
  normalize_total_nonempty "x" (by decide)

/-! ### Claim C3 -/

/-- C3: raw text that is not valid JSON and has no opening brace followed
by a closing brace is returned verbatim as the reply, together with the
3-item language-matched fallback followups. -/
theorem normalize_plain_text (raw : String)
    (hjson : jsonParse raw.data = none)
    (hbrace : ∀ i j : Nat, i < j →
      ¬ (raw.data[i]? = some lbrace ∧ raw.data[j]? = some rbrace)) :
    normalize raw = (raw, if hasCJK raw then zhFallbacks else enFallbacks)
      ∧ zhFallbacks.length = 3 ∧ enFallbacks.length = 3 := by
  have hp : parsedOf raw.data = none := by
    rcases hf : pyFind raw.data lbrace with _ | s
    · simp [parsedOf, hjson, hf]
    · rcases hr : pyRfind raw.data rbrace with _ | e
      · simp [parsedOf, hjson, hf, hr]
      · have hnl : ¬ s < e := fun hlt => hbrace s e hlt ⟨pyFind_mem hf, pyRfind_mem hr⟩
        simp [parsedOf, hjson, hf, hr, hnl]
  refine ⟨?_, by rfl, by rfl⟩
  simp [normalize, extractPair, hp, fallbackFollowups]

/-- C3 witness at a concrete brace-free non-JSON text. -/
theorem normalize_plain_text_witness :
    normalize "hello" = ("hello", enFallbacks) := by
  have h := normalize_plain_text "hello" (by rfl)
    (fun i j _ hmem => absurd (List.getElem?_mem hmem.1) (by decide))
  simpa using h.1

/-! ### Claim C4 -/

/-- C4: when direct parsing fails but the substring from the first
opening brace to the last closing brace parses as a JSON object, the
normalizer extracts the reply and the string followups from that
embedded object, ignoring the surrounding prose. -/
theorem normalize_embedded_json (raw R : String) (s e : Nat)
    (fields : List (String × Json)) (items : List Json)
    (hjson : jsonParse raw.data = none)
    (hs : pyFind raw.data lbrace = some s)
    (he : pyRfind raw.data rbrace = some e)
    (hse : s < e)
    (hsub : jsonParse ((raw.data.drop s).take (e + 1 - s))
      = some (Json.obj fields))
    (hr : jget fields "reply" = some (Json.str R))
    (hR : R ≠ "")
    (hf : jget fields "followups" = some (Json.arr items))
    (hne : stringItems items ≠ []) :
    normalize raw = (R, stringItems items) := by
  have hp : parsedOf raw.data = some (Json.obj fields) := by
    simp [parsedOf, hjson, hs, he, hse, hsub]
  have hex : extractPair (parsedOf raw.data) = (R, stringItems items) := by
    rw [hp]
    simp [extractPair, hr, hf]
  simp [normalize, hex, hR, hne]

/-- C4 witness at the spec's own example of a JSON object embedded in
prose. -/
theorem normalize_embedded_json_witness :
    normalize "Sure! \x7b\"reply\":\"Hi\",\"followups\":[\"a\",\"b\",\"c\"]\x7d Thanks"
      = ("Hi", ["a", "b", "c"]) :=
  normalize_embedded_json _ "Hi" 6 45
    [("reply", Json.str "Hi"),
     ("followups", Json.arr [Json.str "a", Json.str "b", Json.str "c"])]
    [Json.str "a", Json.str "b", Json.str "c"]
    (by rfl) (by rfl) (by rfl) (by decide) (by rfl) (by rfl) (by decide)
    (by rfl) (by decide)

/-! ### Claim C5 -/

/-- C5: whenever extraction produced no followup strings, the normalizer
returns the fixed bilingual fallback set of exactly 3 items, the
Traditional-Chinese set when the reply text contains a CJK Unified
Ideograph and the English set otherwise. -/
theorem normalize_fallback_followups (raw : String)
    (h : (extractPair (parsedOf raw.data)).2 = []) :
    (normalize raw).2
        = (if hasCJK (normalize raw).1 then zhFallbacks else enFallbacks)
      ∧ zhFallbacks.length = 3 ∧ enFallbacks.length = 3 := by
  refine ⟨?_, by rfl, by rfl⟩
  simp [normalize, h, fallbackFollowups]

/-- C5 witness: a CJK reply selects the Traditional-Chinese set and an
English reply selects the English set. -/
theorem normalize_fallback_followups_witness :
    (normalize "這是測試").2 = zhFallbacks
      ∧ (normalize "This is a test").2 = enFallbacks := by
  constructor
  · have h := (normalize_fallback_followups "這是測試" (by rfl)).1
    rw [h]
    rfl
  · have h := (normalize_fallback_followups "This is a test" (by rfl)).1
    rw [h]
    rfl

/-! ### Claim C10 -/

/-- C10: a directly-parsed non-object value yields the entire raw text as
reply with the language-matched fallback followups (no substring
extraction is attempted), and a parsed object whose `reply` field is the
empty string likewise yields the entire raw text as reply. -/
theorem normalize_nonobject_or_empty_reply :
    (∀ (raw : String) (v : Json), jsonParse raw.data = some v →
      (∀ fields, v ≠ Json.obj fields) →
      normalize raw = (raw, fallbackFollowups raw))
    ∧ (∀ (raw : String) (fields : List (String × Json)),
        jsonParse raw.data = some (Json.obj fields) →
        jget fields "reply" = some (Json.str "") →
        (normalize raw).1 = raw) := by
  constructor
  · intro raw v hparse hno
    have hp : parsedOf raw.data = some v := by simp [parsedOf, hparse]
    have hex : extractPair (parsedOf raw.data) = ("", []) := by
      rw [hp]
      cases v with
      | obj fields => exact absurd rfl (hno fields)
      | null => rfl
      | bool b => rfl
      | num n => rfl
      | str s => rfl
      | arr items => rfl
    simp [normalize, hex]
  · intro raw fields hparse hr
    have hp : parsedOf raw.data = some (Json.obj fields) := by
      simp [parsedOf, hparse]
    have hex : (extractPair (parsedOf raw.data)).1 = "" := by
      rw [hp]
      simp [extractPair, hr]
    simp [normalize, hex]

/-- C10 witness: a JSON array completion and an embedded empty reply. -/
theorem normalize_nonobject_or_empty_reply_witness :
    normalize "[1, 2]" = ("[1, 2]", fallbackFollowups "[1, 2]")
      ∧ (normalize "\x7b\"reply\":\"\"\x7d").1 = "\x7b\"reply\":\"\"\x7d" := by
  constructor
  · exact normalize_nonobject_or_empty_reply.1 "[1, 2]"
      (Json.arr [Json.num 1, Json.num 2]) (by rfl)
      (fun fields h => Json.noConfusion h)
  · exact normalize_nonobject_or_empty_reply.2 "\x7b\"reply\":\"\"\x7d"
      [("reply", Json.str "")] (by rfl) (by rfl)

/-! ### Claim C6 -/

/-- C6: appending a turn to a well-formed history preserves it as a
prefix and adds exactly the user turn then the assistant turn; a history
that is not a sequence is coerced to the empty history. -/
theorem appendTurn_spec : ∀ (l : List Json) (u a : String),
    ((appendTurn (Json.arr l) u a).length = l.length + 2
      ∧ (appendTurn (Json.arr l) u a).take l.length = l
      ∧ (appendTurn (Json.arr l) u a).drop l.length
          = [mkTurn "user" u, mkTurn "assistant" a])
    ∧ ∀ h : Json, (∀ l2, h ≠ Json.arr l2) →
        appendTurn h u a = [mkTurn "user" u, mkTurn "assistant" a] := by
  intro l u a
  constructor
  · refine ⟨?_, ?_, ?_⟩
    · simp [appendTurn]
    · exact List.take_left l _
    · exact List.drop_left l _
  · intro h hno
    cases h with
    | arr l2 => exact absurd rfl (hno l2)
    | null => rfl
    | bool b => rfl
    | num n => rfl
    | str s => rfl
    | obj fields => rfl

/-- C6 witness: the spec's `appendTurn([], "hello", "hi there")` example
plus the coercion of a non-sequence history. -/
theorem appendTurn_spec_witness :
    appendTurn (Json.arr []) "hello" "hi there"
        = [mkTurn "user" "hello", mkTurn "assistant" "hi there"]
      ∧ appendTurn (Json.str "bad") "hello" "hi there"
        = [mkTurn "user" "hello", mkTurn "assistant" "hi there"] :=
  ⟨by
    have h := (appendTurn_spec [] "hello" "hi there").1.2.2
    simpa using h,
   (appendTurn_spec [] "hello" "hi there").2 (Json.str "bad")
     (fun l2 h => Json.noConfusion h)⟩

/-! ### Claim C7 -/

/-- C7: a request whose message is absent, or is a string that is empty
after stripping, is answered with status 400 and the body
`{"error": "message is required"}`, for every upstream behaviour — in
particular for the empty oracle, so no upstream call is consumed. -/
theorem chat_rejects_empty_message (data : List (String × Json))
    (upstream : List UpResp)
    (h : jget data "message" = none
      ∨ ∃ m, jget data "message" = some (Json.str m) ∧ pyStrip m = "") :
    chat data upstream
      = some (400, Json.obj [("error", Json.str "message is required")]) := by
  rcases h with h | ⟨m, hm, hs⟩
  · have h0 : pyStrip "" = "" := rfl
    simp [chat, h, h0]
  · simp [chat, hm, hs]

/-- C7 witness: a whitespace-only message with an empty upstream oracle,
and an absent message. -/
theorem chat_rejects_empty_message_witness :
    chat [("message", Json.str "   ")] []
        = some (400, Json.obj [("error", Json.str "message is required")])
      ∧ chat [] []
        = some (400, Json.obj [("error", Json.str "message is required")]) :=
  ⟨chat_rejects_empty_message _ _ (Or.inr ⟨"   ", by rfl, by rfl⟩),
   chat_rejects_empty_message _ _ (Or.inl (by rfl))⟩

/-! ### Claim C8 -/

/-- C8: a non-2xx upstream response is propagated to the caller with the
same status code, error `upstream_error` and the upstream body; only the
first oracle entry is consumed (the conclusion holds uniformly in the
rest of the oracle, so there is no retry). -/
theorem chat_upstream_error (data : List (String × Json)) (m : String)
    (status : Nat) (text : String) (content : Option String)
    (rest : List UpResp)
    (hm : jget data "message" = some (Json.str m))
    (hne : pyStrip m ≠ "")
    (hst : ¬ (200 ≤ status ∧ status ≤ 299)) :
    chat data (UpResp.resp status text content :: rest)
      = some (status, Json.obj
          [("error", Json.str "upstream_error"),
           ("status", Json.num (Int.ofNat status)),
           ("body", Json.str text)]) := by
  have h200 : status ≠ 200 := by
    intro h
    exact hst (by omega)
  simp [chat, hm, hne, h200]

/-- C8 witness: a 429 upstream response with a non-empty message. -/
theorem chat_upstream_error_witness :
    chat [("message", Json.str "hi")]
        [UpResp.resp 429 "rate limited" none]
      = some (429, Json.obj
          [("error", Json.str "upstream_error"),
           ("status", Json.num (Int.ofNat 429)),
           ("body", Json.str "rate limited")]) :=
  chat_upstream_error _ "hi" 429 "rate limited" none []
    (by rfl) (by decide) (by decide)

/-! ### Claim C9 -/

/-- A crawl environment on which every fetch raises (the exception
message rendered as the empty string), exercising the failure-entry
branch of the loop. -/
def cxEnv : CrawlEnv where
  fetch := fun _ => FetchRes.fail []
  soupText := fun b => b
  links := fun _ _ => []

/-- A start URL that passes the seed validation (scheme `http`, netloc
`a`) and whose 30000-character path makes a single failure entry already
exceed the total corpus cap. -/
def bigUrl : List Char := "http://a/".data ++ List.replicate 30000 'x'

theorem cx_seed_len : bigUrl.length = 30009 := by
  rw [bigUrl, List.length_append]
  rw [show (("http://a/".data : List Char)).length = 9 from rfl]
  rw [List.length_replicate]

theorem cx_entry_len : (failEntry bigUrl []).length = 30031 := by
  rw [failEntry]
  rw [List.length_append, List.length_append, List.length_append,
    List.length_append]
  rw [show (("\n[Failed to fetch ".data : List Char)).length = 18 from rfl]
  rw [cx_seed_len]
  rw [show ((": ".data : List Char)).length = 2 from rfl]
  rw [show (([] : List Char)).length = 0 from rfl]
  rw [show (("]\n".data : List Char)).length = 2 from rfl]

theorem cx_join_eq : joinAll [failEntry bigUrl []] = failEntry bigUrl [] := by
  rw [joinAll, List.foldr_cons, List.foldr_nil, List.append_nil]

theorem cx_crawl_eq :
    crawl_insmart cxEnv bigUrl 50 5000 30000 2
      = some ((failEntry bigUrl []).take 30000 ++ overallMarker) := by
  have hvalid : validSeed bigUrl = true := rfl
  have hloop : crawlLoop cxEnv 50 5000 30000 2 [bigUrl] [] []
      = [failEntry bigUrl []] := rfl
  simp only [crawl_insmart, hloop, cx_join_eq]
  rw [if_pos hvalid]
  rw [cx_entry_len]
  rw [if_pos (by norm_num)]

theorem cx_trunc_len :
    ((failEntry bigUrl []).take 30000 ++ overallMarker).length = 30030 := by
  rw [List.length_append, List.length_take, cx_entry_len]
  have hm : overallMarker.length = 30 := rfl
  omega

/-- C9 counterexample: a crawl from a seed that passes the URL
validation succeeds and returns a corpus of 30030 characters — the code
truncates the joined text to the 30000-char cap and then appends the
30-character marker on top, so the returned string exceeds the cap. -/
theorem crawl_corpus_cap_cx :
    (crawl_insmart cxEnv bigUrl 50 5000 30000 2).map List.length
        = some 30030
      ∧ 30000 < 30030 := by
  constructor
  · rw [cx_crawl_eq]
    simp only [Option.map_some']
    rw [cx_trunc_len]
  · norm_num

/-- C9 (amended): every successful crawl with the 30000-character total
cap returns a corpus of length at most the cap plus the truncation
marker (30030 characters in all); whenever it exceeds the cap, it is
exactly 30030 characters and ends with the truncation marker. -/
theorem crawl_corpus_bound (env : CrawlEnv) (startUrl corpus : List Char)
    (maxPages perPage fuel : Nat)
    (h : crawl_insmart env startUrl maxPages perPage 30000 fuel = some corpus) :
    corpus.length ≤ 30000 + overallMarker.length
      ∧ (30000 < corpus.length →
          corpus.length = 30000 + overallMarker.length
            ∧ List.IsSuffix overallMarker corpus) := by
  simp only [crawl_insmart] at h
  by_cases hv : validSeed startUrl = true
  · rw [if_pos hv] at h
    rw [Option.some.injEq] at h
    subst h
    by_cases hlen : 30000 <
        (joinAll (crawlLoop env maxPages perPage 30000 fuel [startUrl] [] [])).length
    · rw [if_pos hlen]
      have hl : (List.take 30000
            (joinAll (crawlLoop env maxPages perPage 30000 fuel [startUrl] [] []))
          ++ overallMarker).length = 30000 + overallMarker.length := by
        rw [List.length_append, List.length_take]
        omega
      exact ⟨le_of_eq hl, fun _ => ⟨hl, List.suffix_append _ _⟩⟩
    · rw [if_neg hlen]
      push_neg at hlen
      exact ⟨le_trans hlen (by omega), fun hc => absurd hc (by omega)⟩
  · rw [if_neg hv] at h
    cases h

/-- C9 witness: the bound theorem applied at the concrete over-cap
successful crawl, with its hypothesis and implication discharged there. -/
theorem crawl_corpus_bound_witness :
    ((failEntry bigUrl []).take 30000 ++ overallMarker).length
        = 30000 + overallMarker.length
      ∧ List.IsSuffix overallMarker
          ((failEntry bigUrl []).take 30000 ++ overallMarker) :=
  (crawl_corpus_bound cxEnv bigUrl
      ((failEntry bigUrl []).take 30000 ++ overallMarker) 50 5000 2 cx_crawl_eq).2
    (by rw [cx_trunc_len]; norm_num)

end Insmart
